import Mathlib

/-!
Verification of the crucible wire protocol layer: the length-delimited frame
codec (`CrucibleEncoder.encode` / `CrucibleDecoder.decode`), the message
catalog with its bincode-style serialization, and the connection handshake
state machine (`HandshakeProcess`).

Bytes are modelled as `Nat` values (each byte of real input is below 256; the
serializers only emit values below 256). Machine integers are `Nat` with an
explicit `% 2 ^ w` wherever the code truncates. Fallible operations return
`Except`.
-/

namespace Crucible

/-! ## Little-endian byte primitives

`natToLe w n` is the `w`-byte little-endian encoding of `n % 256 ^ w`
(the serialization of a `w`-byte unsigned integer, truncating like an
`as` cast). `leToNat` is the reading direction (`u32::from_le_bytes`
and bincode's fixed-width integer decoding). -/

def natToLe : Nat → Nat → List Nat
  | 0, _ => []
  | w + 1, n => n % 256 :: natToLe w (n / 256)

def leToNat : List Nat → Nat
  | [] => 0
  | b :: bs => b + 256 * leToNat bs

@[simp] theorem length_natToLe (w n : Nat) : (natToLe w n).length = w := by
  induction w generalizing n with
  | zero => rfl
  | succ w ih => simp [natToLe, ih]

theorem leToNat_natToLe (w n : Nat) : leToNat (natToLe w n) = n % 256 ^ w := by
  induction w generalizing n with
  | zero => simp [natToLe, leToNat, Nat.mod_one]
  | succ w ih =>
      simp only [natToLe, leToNat, ih]
      rw [pow_succ', Nat.mod_mul]

theorem leToNat_natToLe_of_lt {w n : Nat} (h : n < 256 ^ w) :
    leToNat (natToLe w n) = n := by
  rw [leToNat_natToLe, Nat.mod_eq_of_lt h]

/-! ## Deserialization errors

Structured embedding of the error values the Rust code can produce:
`frameTooLarge` is the decoder's own bail on an oversized declared length;
the others are bincode deserialization failures (truncated input, an enum
variant index out of range, a byte that is not a valid bool or Option tag,
a byte string of the wrong length for a Uuid). -/

inductive DecodeErr : Type
  | frameTooLarge (len : Nat)
  | eof
  | invalidTag (tag : Nat)
  | invalidBool (b : Nat)
  | invalidOptionTag (b : Nat)
  | invalidUuidLen (n : Nat)
  deriving DecidableEq, Repr

/-! ## Parser combinators

Bincode's `deserialize_from` reads from a cursor over the buffer; we model a
reader as a function from the remaining bytes to either an error or a value
with the unconsumed tail. -/

def P (α : Type) : Type := List Nat → Except DecodeErr (α × List Nat)

def ppure {α : Type} (a : α) : P α := fun src => .ok (a, src)

def pbind {α β : Type} (p : P α) (f : α → P β) : P β := fun src =>
  match p src with
  | .ok (a, rest) => f a rest
  | .error e => .error e

def pfail {α : Type} (e : DecodeErr) : P α := fun _ => .error e

/-- Read exactly `k` raw bytes (bincode reading a fixed-size region; errors
with unexpected EOF when the reader runs dry). -/
def readBytes (k : Nat) : P (List Nat) := fun src =>
  if k ≤ src.length then .ok (src.take k, src.drop k) else .error .eof

/-- Read a `w`-byte little-endian unsigned integer. -/
def readNat (w : Nat) : P Nat :=
  pbind (readBytes w) fun bs => ppure (leToNat bs)

@[simp] theorem ppure_apply {α : Type} (a : α) (src : List Nat) :
    ppure a src = .ok (a, src) := rfl

@[simp] theorem pfail_apply {α : Type} (e : DecodeErr) (src : List Nat) :
    pfail (α := α) e src = .error e := rfl

theorem pbind_apply_ok {α β : Type} {p : P α} {f : α → P β} {src rest : List Nat}
    {a : α} (h : p src = .ok (a, rest)) : pbind p f src = f a rest := by
  simp [pbind, h]

theorem readBytes_append {l rest : List Nat} {k : Nat} (h : l.length = k) :
    readBytes k (l ++ rest) = .ok (l, rest) := by
  subst h
  simp [readBytes, List.take_left, List.drop_left]

theorem readNat_append {w n : Nat} (rest : List Nat) (h : n < 256 ^ w) :
    readNat w (natToLe w n ++ rest) = .ok (n, rest) := by
  rw [readNat, pbind_apply_ok (readBytes_append (length_natToLe w n))]
  simp [leToNat_natToLe_of_lt h]

/-! ## Data model

Shallow embedding of the types in `protocol/src/lib.rs`. `Block`,
`RegionDefinition` and `CrucibleError` come from the `crucible_common` crate,
which is outside the sources at hand; they are modelled from the spec. Byte
buffers (`bytes::Bytes`, `BytesMut`, `Vec<u8>`) are `List Nat`. -/

/-- Modelled from the spec: `Block` from `crucible_common` (not among the
given sources) is the block offset carried by `Write` / `ReadRequest` /
`ReadResponse`; modelled as a single u64 block index. -/
structure Block : Type where
  value : Nat
  deriving DecidableEq, Repr

/-- Modelled from the spec: `RegionDefinition` from `crucible_common` (not
among the given sources); the spec lists block size, block count, extent
count and an encryption flag. -/
structure RegionDefinition : Type where
  block_size : Nat
  block_count : Nat
  extent_count : Nat
  encrypted : Bool
  deriving DecidableEq, Repr

/-- Modelled from the spec: `CrucibleError` from `crucible_common` (not among
the given sources); the spec describes it as a stable serializable error
description, kind plus message. Modelled as a u32 kind tag and a byte-string
message. -/
structure CrucibleError : Type where
  kind : Nat
  message : List Nat
  deriving DecidableEq, Repr

/-- Rust's `Result<T, E>` as it appears on the wire: serde treats it as an
enum with variants `Ok` (index 0) and `Err` (index 1). -/
inductive RustResult (α ε : Type) : Type
  | Ok (a : α)
  | Err (e : ε)
  deriving DecidableEq, Repr

/-- The per-block write unit (`struct Write` in `lib.rs`): extent id, block
offset, raw data bytes, optional nonce and optional authentication tag. -/
structure Write : Type where
  eid : Nat
  offset : Block
  data : List Nat
  nonce : Option (List Nat)
  tag : Option (List Nat)
  deriving DecidableEq, Repr

/-- `struct ReadRequest` in `lib.rs`: extent id, block offset, block count. -/
structure ReadRequest : Type where
  eid : Nat
  offset : Block
  num_blocks : Nat
  deriving DecidableEq, Repr

/-- `struct ReadResponse` in `lib.rs`: the request echo plus the data buffer
and optional nonce/tag. -/
structure ReadResponse : Type where
  eid : Nat
  offset : Block
  num_blocks : Nat
  data : List Nat
  nonce : Option (List Nat)
  tag : Option (List Nat)
  deriving DecidableEq, Repr

/-- `uuid::Uuid`: 16 raw bytes (serde serializes it with `serialize_bytes`
over `as_bytes()`). -/
structure Uuid : Type where
  bytes : List Nat
  deriving DecidableEq, Repr

/-- `enum Message` in `lib.rs`, constructors in source order (the order fixes
each variant's bincode tag index). -/
inductive Message : Type
  | HereIAm (version : Nat) (uuid : Uuid)
  | YesItsMe (version : Nat)
  | PromoteToActive (uuid : Uuid)
  | YouAreNowActive (uuid : Uuid)
  | YouAreNoLongerActive (uuid : Uuid)
  | UuidMismatch (uuid : Uuid)
  | Ruok
  | Imok
  | RegionInfoPlease
  | RegionInfo (rd : RegionDefinition)
  | ExtentVersionsPlease
  | LastFlush (lf : Nat)
  | LastFlushAck (lf : Nat)
  | ExtentVersions (versions : List Nat) (generations : List Nat) (dirty : List Bool)
  | Write (uuid : Uuid) (job : Nat) (deps : List Nat) (writes : List Crucible.Write)
  | WriteAck (uuid : Uuid) (job : Nat) (result : RustResult Unit CrucibleError)
  | Flush (uuid : Uuid) (job : Nat) (deps : List Nat) (flushNum : Nat) (genNum : Nat)
  | FlushAck (uuid : Uuid) (job : Nat) (result : RustResult Unit CrucibleError)
  | ReadRequest (uuid : Uuid) (job : Nat) (deps : List Nat) (requests : List Crucible.ReadRequest)
  | ReadResponse (uuid : Uuid) (job : Nat)
      (result : RustResult (List Crucible.ReadResponse) CrucibleError)
  | Unknown (tag : Nat) (raw : List Nat)
  deriving DecidableEq, Repr

/-! ## Serialization (bincode default configuration)

Fixed-width little-endian integers, a u32 variant index for enums, a u64
element count for sequences and byte strings, one byte (0/1) for `bool` and
for the `Option` tag. `serMessage` is the byte string
`bincode::serialize(&m)` produces; the parsers below are
`bincode::deserialize_from` reading the same layout from a cursor. -/

def serBool : Bool → List Nat
  | false => [0]
  | true => [1]

def serBytes (d : List Nat) : List Nat := natToLe 8 d.length ++ d

def serOption (f : α → List Nat) : Option α → List Nat
  | none => [0]
  | some a => 1 :: f a

def serSeq (f : α → List Nat) (l : List α) : List Nat :=
  natToLe 8 l.length ++ (l.map f).flatten

def serUuid (u : Uuid) : List Nat := natToLe 8 16 ++ u.bytes

def serBlock (b : Block) : List Nat := natToLe 8 b.value

def serRegionDefinition (r : RegionDefinition) : List Nat :=
  natToLe 8 r.block_size ++ natToLe 8 r.block_count ++
    natToLe 8 r.extent_count ++ serBool r.encrypted

def serCrucibleError (e : CrucibleError) : List Nat :=
  natToLe 4 e.kind ++ serBytes e.message

def serRustResult (f : α → List Nat) (g : ε → List Nat) : RustResult α ε → List Nat
  | .Ok a => natToLe 4 0 ++ f a
  | .Err e => natToLe 4 1 ++ g e

def serWrite (w : Write) : List Nat :=
  natToLe 8 w.eid ++ serBlock w.offset ++ serBytes w.data ++
    serOption serBytes w.nonce ++ serOption serBytes w.tag

def serReadRequest (r : ReadRequest) : List Nat :=
  natToLe 8 r.eid ++ serBlock r.offset ++ natToLe 8 r.num_blocks

def serReadResponse (r : ReadResponse) : List Nat :=
  natToLe 8 r.eid ++ serBlock r.offset ++ natToLe 8 r.num_blocks ++
    serBytes r.data ++ serOption serBytes r.nonce ++ serOption serBytes r.tag

def serMessage : Message → List Nat
  | .HereIAm v u => natToLe 4 0 ++ natToLe 4 v ++ serUuid u
  | .YesItsMe v => natToLe 4 1 ++ natToLe 4 v
  | .PromoteToActive u => natToLe 4 2 ++ serUuid u
  | .YouAreNowActive u => natToLe 4 3 ++ serUuid u
  | .YouAreNoLongerActive u => natToLe 4 4 ++ serUuid u
  | .UuidMismatch u => natToLe 4 5 ++ serUuid u
  | .Ruok => natToLe 4 6
  | .Imok => natToLe 4 7
  | .RegionInfoPlease => natToLe 4 8
  | .RegionInfo rd => natToLe 4 9 ++ serRegionDefinition rd
  | .ExtentVersionsPlease => natToLe 4 10
  | .LastFlush lf => natToLe 4 11 ++ natToLe 8 lf
  | .LastFlushAck lf => natToLe 4 12 ++ natToLe 8 lf
  | .ExtentVersions a b c =>
      natToLe 4 13 ++ serSeq (natToLe 8) a ++ serSeq (natToLe 8) b ++ serSeq serBool c
  | .Write u j deps ws =>
      natToLe 4 14 ++ serUuid u ++ natToLe 8 j ++ serSeq (natToLe 8) deps ++
        serSeq serWrite ws
  | .WriteAck u j r =>
      natToLe 4 15 ++ serUuid u ++ natToLe 8 j ++
        serRustResult (fun _ => []) serCrucibleError r
  | .Flush u j deps fn gn =>
      natToLe 4 16 ++ serUuid u ++ natToLe 8 j ++ serSeq (natToLe 8) deps ++
        natToLe 8 fn ++ natToLe 8 gn
  | .FlushAck u j r =>
      natToLe 4 17 ++ serUuid u ++ natToLe 8 j ++
        serRustResult (fun _ => []) serCrucibleError r
  | .ReadRequest u j deps rs =>
      natToLe 4 18 ++ serUuid u ++ natToLe 8 j ++ serSeq (natToLe 8) deps ++
        serSeq serReadRequest rs
  | .ReadResponse u j r =>
      natToLe 4 19 ++ serUuid u ++ natToLe 8 j ++
        serRustResult (serSeq serReadResponse) serCrucibleError r
  | .Unknown t raw => natToLe 4 20 ++ natToLe 4 t ++ serBytes raw

/-! ## Deserialization -/

def parseBool : P Bool :=
  pbind (readBytes 1) fun bs =>
    match bs with
    | [0] => ppure false
    | [1] => ppure true
    | b :: _ => pfail (.invalidBool b)
    | [] => pfail .eof

def parseBytes : P (List Nat) :=
  pbind (readNat 8) fun n => readBytes n

def parseOption (p : P α) : P (Option α) :=
  pbind (readBytes 1) fun bs =>
    match bs with
    | [0] => ppure none
    | [1] => pbind p fun a => ppure (some a)
    | b :: _ => pfail (.invalidOptionTag b)
    | [] => pfail .eof

/-- Decode exactly `n` consecutive values, threading the unconsumed tail. -/
def parseCount (p : P α) : Nat → P (List α)
  | 0 => ppure []
  | n + 1 => pbind p fun a => pbind (parseCount p n) fun as => ppure (a :: as)

def parseSeq (p : P α) : P (List α) :=
  pbind (readNat 8) fun n => parseCount p n

def parseUuid : P Uuid :=
  pbind (readNat 8) fun n =>
    if n = 16 then pbind (readBytes 16) fun bs => ppure (Uuid.mk bs)
    else pfail (.invalidUuidLen n)

def parseBlock : P Block :=
  pbind (readNat 8) fun v => ppure (Block.mk v)

def parseRegionDefinition : P RegionDefinition :=
  pbind (readNat 8) fun bs =>
    pbind (readNat 8) fun bc =>
      pbind (readNat 8) fun ec =>
        pbind parseBool fun enc => ppure (RegionDefinition.mk bs bc ec enc)

def parseCrucibleError : P CrucibleError :=
  pbind (readNat 4) fun k =>
    pbind parseBytes fun msg => ppure (CrucibleError.mk k msg)

def parseRustResult (p : P α) (q : P ε) : P (RustResult α ε) :=
  pbind (readNat 4) fun t =>
    match t with
    | 0 => pbind p fun a => ppure (RustResult.Ok a)
    | 1 => pbind q fun e => ppure (RustResult.Err e)
    | t => pfail (.invalidTag t)

def parseWrite : P Write :=
  pbind (readNat 8) fun eid =>
    pbind parseBlock fun off =>
      pbind parseBytes fun data =>
        pbind (parseOption parseBytes) fun nonce =>
          pbind (parseOption parseBytes) fun tg =>
            ppure (Write.mk eid off data nonce tg)

def parseReadRequest : P ReadRequest :=
  pbind (readNat 8) fun eid =>
    pbind parseBlock fun off =>
      pbind (readNat 8) fun nb => ppure (ReadRequest.mk eid off nb)

def parseReadResponse : P ReadResponse :=
  pbind (readNat 8) fun eid =>
    pbind parseBlock fun off =>
      pbind (readNat 8) fun nb =>
        pbind parseBytes fun data =>
          pbind (parseOption parseBytes) fun nonce =>
            pbind (parseOption parseBytes) fun tg =>
              ppure (ReadResponse.mk eid off nb data nonce tg)

def parseMessage : P Message :=
  pbind (readNat 4) fun t =>
    match t with
    | 0 => pbind (readNat 4) fun v => pbind parseUuid fun u => ppure (.HereIAm v u)
    | 1 => pbind (readNat 4) fun v => ppure (.YesItsMe v)
    | 2 => pbind parseUuid fun u => ppure (.PromoteToActive u)
    | 3 => pbind parseUuid fun u => ppure (.YouAreNowActive u)
    | 4 => pbind parseUuid fun u => ppure (.YouAreNoLongerActive u)
    | 5 => pbind parseUuid fun u => ppure (.UuidMismatch u)
    | 6 => ppure .Ruok
    | 7 => ppure .Imok
    | 8 => ppure .RegionInfoPlease
    | 9 => pbind parseRegionDefinition fun rd => ppure (.RegionInfo rd)
    | 10 => ppure .ExtentVersionsPlease
    | 11 => pbind (readNat 8) fun lf => ppure (.LastFlush lf)
    | 12 => pbind (readNat 8) fun lf => ppure (.LastFlushAck lf)
    | 13 =>
        pbind (parseSeq (readNat 8)) fun a =>
          pbind (parseSeq (readNat 8)) fun b =>
            pbind (parseSeq parseBool) fun c => ppure (.ExtentVersions a b c)
    | 14 =>
        pbind parseUuid fun u =>
          pbind (readNat 8) fun j =>
            pbind (parseSeq (readNat 8)) fun deps =>
              pbind (parseSeq parseWrite) fun ws => ppure (.Write u j deps ws)
    | 15 =>
        pbind parseUuid fun u =>
          pbind (readNat 8) fun j =>
            pbind (parseRustResult (ppure ()) parseCrucibleError) fun r =>
              ppure (.WriteAck u j r)
    | 16 =>
        pbind parseUuid fun u =>
          pbind (readNat 8) fun j =>
            pbind (parseSeq (readNat 8)) fun deps =>
              pbind (readNat 8) fun fn =>
                pbind (readNat 8) fun gn => ppure (.Flush u j deps fn gn)
    | 17 =>
        pbind parseUuid fun u =>
          pbind (readNat 8) fun j =>
            pbind (parseRustResult (ppure ()) parseCrucibleError) fun r =>
              ppure (.FlushAck u j r)
    | 18 =>
        pbind parseUuid fun u =>
          pbind (readNat 8) fun j =>
            pbind (parseSeq (readNat 8)) fun deps =>
              pbind (parseSeq parseReadRequest) fun rs => ppure (.ReadRequest u j deps rs)
    | 19 =>
        pbind parseUuid fun u =>
          pbind (readNat 8) fun j =>
            pbind (parseRustResult (parseSeq parseReadResponse) parseCrucibleError) fun r =>
              ppure (.ReadResponse u j r)
    | 20 => pbind (readNat 4) fun tg => pbind parseBytes fun raw => ppure (.Unknown tg raw)
    | t => pfail (.invalidTag t)

/-! ## Constructibility

`wfB` characterizes the model values that correspond to constructible Rust
values: every machine-integer field is within its width and every sequence
length fits the u64 count that bincode writes. Byte values themselves need no
bound: the embedding threads raw bytes through serialization unchanged, so
the round-trip theorems hold for arbitrary `Nat` entries, which subsumes the
real bytes (all below 256). -/

def u64wf (n : Nat) : Bool := decide (n < 2 ^ 64)

def u32wf (n : Nat) : Bool := decide (n < 2 ^ 32)

def bytesWf (d : List Nat) : Bool := decide (d.length < 2 ^ 64)

def optBytesWf : Option (List Nat) → Bool
  | none => true
  | some d => bytesWf d

def seqWf (f : α → Bool) (l : List α) : Bool :=
  decide (l.length < 2 ^ 64) && l.all f

def Uuid.wfB (u : Uuid) : Bool := decide (u.bytes.length = 16)

def Block.wfB (b : Block) : Bool := u64wf b.value

def RegionDefinition.wfB (r : RegionDefinition) : Bool :=
  u64wf r.block_size && u64wf r.block_count && u64wf r.extent_count

def CrucibleError.wfB (e : CrucibleError) : Bool :=
  u32wf e.kind && bytesWf e.message

def RustResult.wfB (f : α → Bool) (g : ε → Bool) : RustResult α ε → Bool
  | .Ok a => f a
  | .Err e => g e

def Write.wfB (w : Write) : Bool :=
  u64wf w.eid && w.offset.wfB && bytesWf w.data &&
    optBytesWf w.nonce && optBytesWf w.tag

def ReadRequest.wfB (r : ReadRequest) : Bool :=
  u64wf r.eid && r.offset.wfB && u64wf r.num_blocks

def ReadResponse.wfB (r : ReadResponse) : Bool :=
  u64wf r.eid && r.offset.wfB && u64wf r.num_blocks && bytesWf r.data &&
    optBytesWf r.nonce && optBytesWf r.tag

def Message.wfB : Message → Bool
  | .HereIAm v u => u32wf v && u.wfB
  | .YesItsMe v => u32wf v
  | .PromoteToActive u => u.wfB
  | .YouAreNowActive u => u.wfB
  | .YouAreNoLongerActive u => u.wfB
  | .UuidMismatch u => u.wfB
  | .Ruok => true
  | .Imok => true
  | .RegionInfoPlease => true
  | .RegionInfo rd => rd.wfB
  | .ExtentVersionsPlease => true
  | .LastFlush lf => u64wf lf
  | .LastFlushAck lf => u64wf lf
  | .ExtentVersions a b c => seqWf u64wf a && seqWf u64wf b && seqWf (fun _ => true) c
  | .Write u j deps ws => u.wfB && u64wf j && seqWf u64wf deps && seqWf Write.wfB ws
  | .WriteAck u j r => u.wfB && u64wf j && r.wfB (fun _ => true) CrucibleError.wfB
  | .Flush u j deps fn gn =>
      u.wfB && u64wf j && seqWf u64wf deps && u64wf fn && u64wf gn
  | .FlushAck u j r => u.wfB && u64wf j && r.wfB (fun _ => true) CrucibleError.wfB
  | .ReadRequest u j deps rs =>
      u.wfB && u64wf j && seqWf u64wf deps && seqWf ReadRequest.wfB rs
  | .ReadResponse u j r =>
      u.wfB && u64wf j && r.wfB (seqWf ReadResponse.wfB) CrucibleError.wfB
  | .Unknown t raw => u32wf t && bytesWf raw


/-! ## Round-trip lemmas, per wire type

Each lemma has the shape `parse (ser x ++ rest) = .ok (x, rest)`: decoding
the serialized bytes reproduces the value and consumes exactly its encoding,
threading the tail. -/

theorem run_pbind {α β : Type} {p : P α} {f : α → P β} {src mid : List Nat} {a : α}
    {out : Except DecodeErr (β × List Nat)}
    (h1 : p src = .ok (a, mid)) (h2 : f a mid = out) : pbind p f src = out := by
  simp [pbind, h1, h2]

theorem parseBool_ser (b : Bool) (rest : List Nat) :
    parseBool (serBool b ++ rest) = .ok (b, rest) := by
  cases b
  · exact run_pbind (readBytes_append (k := 1) rfl) rfl
  · exact run_pbind (readBytes_append (k := 1) rfl) rfl

theorem parseBytes_ser {d : List Nat} (h : d.length < 2 ^ 64) (rest : List Nat) :
    parseBytes (serBytes d ++ rest) = .ok (d, rest) := by
  simp only [serBytes, List.append_assoc]
  exact run_pbind (readNat_append _ (lt_of_lt_of_le h (by norm_num)))
    (readBytes_append rfl)

theorem parseOption_ser {α : Type} {p : P α} {f : α → List Nat} {o : Option α}
    (h : ∀ a ∈ o, ∀ r, p (f a ++ r) = .ok (a, r)) (rest : List Nat) :
    parseOption p (serOption f o ++ rest) = .ok (o, rest) := by
  cases o with
  | none => exact run_pbind (readBytes_append (k := 1) (l := [0]) rfl) rfl
  | some a =>
      exact run_pbind (readBytes_append (k := 1) (l := [1]) (rfl : ([1] : List Nat).length = 1))
        (run_pbind (h a (by simp) rest) rfl)

theorem parseCount_flatten {α : Type} {p : P α} {f : α → List Nat} {l : List α}
    (h : ∀ a ∈ l, ∀ r, p (f a ++ r) = .ok (a, r)) (rest : List Nat) :
    parseCount p l.length ((l.map f).flatten ++ rest) = .ok (l, rest) := by
  induction l generalizing rest with
  | nil => simp [parseCount]
  | cons a l ih =>
      simp only [List.map_cons, List.flatten_cons, List.length_cons, List.append_assoc]
      exact run_pbind (h a (by simp) _)
        (run_pbind (ih (fun x hx r => h x (by simp [hx]) r) rest) rfl)

theorem parseSeq_ser {α : Type} {p : P α} {f : α → List Nat} {l : List α}
    (hlen : l.length < 2 ^ 64)
    (h : ∀ a ∈ l, ∀ r, p (f a ++ r) = .ok (a, r)) (rest : List Nat) :
    parseSeq p (serSeq f l ++ rest) = .ok (l, rest) := by
  simp only [serSeq, List.append_assoc]
  exact run_pbind (readNat_append _ (lt_of_lt_of_le hlen (by norm_num)))
    (parseCount_flatten h rest)

theorem parseUuid_ser {u : Uuid} (h : u.wfB = true) (rest : List Nat) :
    parseUuid (serUuid u ++ rest) = .ok (u, rest) := by
  have hl : u.bytes.length = 16 := by simpa [Uuid.wfB] using h
  simp only [serUuid, List.append_assoc]
  exact run_pbind (readNat_append _ (by norm_num))
    (run_pbind (readBytes_append hl) rfl)

theorem parseBlock_ser {b : Block} (h : b.wfB = true) (rest : List Nat) :
    parseBlock (serBlock b ++ rest) = .ok (b, rest) := by
  have hv : b.value < 2 ^ 64 := by simpa [Block.wfB, u64wf] using h
  simp only [serBlock]
  exact run_pbind (readNat_append _ (lt_of_lt_of_le hv (by norm_num))) rfl

theorem parseRegionDefinition_ser {r : RegionDefinition} (h : r.wfB = true)
    (rest : List Nat) :
    parseRegionDefinition (serRegionDefinition r ++ rest) = .ok (r, rest) := by
  have h' := h
  simp only [RegionDefinition.wfB, u64wf, Bool.and_eq_true, decide_eq_true_eq] at h'
  obtain ⟨⟨h1, h2⟩, h3⟩ := h'
  simp only [serRegionDefinition, List.append_assoc]
  exact run_pbind (readNat_append _ (lt_of_lt_of_le h1 (by norm_num)))
    (run_pbind (readNat_append _ (lt_of_lt_of_le h2 (by norm_num)))
      (run_pbind (readNat_append _ (lt_of_lt_of_le h3 (by norm_num)))
        (run_pbind (parseBool_ser r.encrypted rest) rfl)))

theorem parseCrucibleError_ser {e : CrucibleError} (h : e.wfB = true)
    (rest : List Nat) :
    parseCrucibleError (serCrucibleError e ++ rest) = .ok (e, rest) := by
  have h' := h
  simp only [CrucibleError.wfB, u32wf, bytesWf, Bool.and_eq_true, decide_eq_true_eq] at h'
  obtain ⟨h1, h2⟩ := h'
  simp only [serCrucibleError, List.append_assoc]
  exact run_pbind (readNat_append _ (lt_of_lt_of_le h1 (by norm_num)))
    (run_pbind (parseBytes_ser h2 rest) rfl)

theorem parseRustResult_ser {α ε : Type} {p : P α} {q : P ε} {f : α → List Nat}
    {g : ε → List Nat} {r : RustResult α ε}
    (hok : ∀ a, r = .Ok a → ∀ s, p (f a ++ s) = .ok (a, s))
    (herr : ∀ e, r = .Err e → ∀ s, q (g e ++ s) = .ok (e, s)) (rest : List Nat) :
    parseRustResult p q (serRustResult f g r ++ rest) = .ok (r, rest) := by
  cases r with
  | Ok a =>
      simp only [serRustResult, List.append_assoc]
      exact run_pbind (readNat_append _ (by norm_num))
        (run_pbind (hok a rfl rest) rfl)
  | Err e =>
      simp only [serRustResult, List.append_assoc]
      exact run_pbind (readNat_append _ (by norm_num))
        (run_pbind (herr e rfl rest) rfl)

theorem lt_of_u64wf {n : Nat} (h : u64wf n = true) : n < 2 ^ 64 := by
  simpa [u64wf] using h

theorem lt_of_u32wf {n : Nat} (h : u32wf n = true) : n < 2 ^ 32 := by
  simpa [u32wf] using h

theorem lt_of_bytesWf {d : List Nat} (h : bytesWf d = true) : d.length < 2 ^ 64 := by
  simpa [bytesWf] using h

theorem lt64_of_seqWf {α : Type} {f : α → Bool} {l : List α} (h : seqWf f l = true) :
    l.length < 2 ^ 64 := by
  have := (Bool.and_eq_true _ _).mp h
  simpa using this.1

theorem seqWf_elem {α : Type} {f : α → Bool} {l : List α} (h : seqWf f l = true) :
    ∀ a ∈ l, f a = true := by
  have := (Bool.and_eq_true _ _).mp h
  simpa [List.all_eq_true] using this.2

theorem readNat64_append {n : Nat} (rest : List Nat) (h : n < 2 ^ 64) :
    readNat 8 (natToLe 8 n ++ rest) = .ok (n, rest) :=
  readNat_append rest (lt_of_lt_of_le h (by norm_num))

theorem readNat32_append {n : Nat} (rest : List Nat) (h : n < 2 ^ 32) :
    readNat 4 (natToLe 4 n ++ rest) = .ok (n, rest) :=
  readNat_append rest (lt_of_lt_of_le h (by norm_num))

theorem seq64_elems {l : List Nat} (h : seqWf u64wf l = true) :
    ∀ x ∈ l, ∀ r, readNat 8 (natToLe 8 x ++ r) = .ok (x, r) :=
  fun x hx r => readNat64_append r (lt_of_u64wf (seqWf_elem h x hx))

theorem optBytes_elems {o : Option (List Nat)} (h : optBytesWf o = true) :
    ∀ a ∈ o, ∀ r, parseBytes (serBytes a ++ r) = .ok (a, r) := by
  cases o with
  | none => simp
  | some d =>
      intro a ha r
      have hd : d = a := by simpa using ha
      subst hd
      exact parseBytes_ser (by simpa [optBytesWf, bytesWf] using h) r

theorem parseWrite_ser {w : Write} (h : w.wfB = true) (rest : List Nat) :
    parseWrite (serWrite w ++ rest) = .ok (w, rest) := by
  simp only [Write.wfB, Bool.and_eq_true] at h
  obtain ⟨⟨⟨⟨h1, h2⟩, h3⟩, h4⟩, h5⟩ := h
  simp only [serWrite, List.append_assoc]
  exact run_pbind (readNat64_append _ (lt_of_u64wf h1))
    (run_pbind (parseBlock_ser h2 _)
      (run_pbind (parseBytes_ser (lt_of_bytesWf h3) _)
        (run_pbind (parseOption_ser (optBytes_elems h4) _)
          (run_pbind (parseOption_ser (optBytes_elems h5) rest) rfl))))

theorem parseReadRequest_ser {r : ReadRequest} (h : r.wfB = true) (rest : List Nat) :
    parseReadRequest (serReadRequest r ++ rest) = .ok (r, rest) := by
  simp only [ReadRequest.wfB, Bool.and_eq_true] at h
  obtain ⟨⟨h1, h2⟩, h3⟩ := h
  simp only [serReadRequest, List.append_assoc]
  exact run_pbind (readNat64_append _ (lt_of_u64wf h1))
    (run_pbind (parseBlock_ser h2 _)
      (run_pbind (readNat64_append rest (lt_of_u64wf h3)) rfl))

theorem parseReadResponse_ser {r : ReadResponse} (h : r.wfB = true) (rest : List Nat) :
    parseReadResponse (serReadResponse r ++ rest) = .ok (r, rest) := by
  simp only [ReadResponse.wfB, Bool.and_eq_true] at h
  obtain ⟨⟨⟨⟨⟨h1, h2⟩, h3⟩, h4⟩, h5⟩, h6⟩ := h
  simp only [serReadResponse, List.append_assoc]
  exact run_pbind (readNat64_append _ (lt_of_u64wf h1))
    (run_pbind (parseBlock_ser h2 _)
      (run_pbind (readNat64_append _ (lt_of_u64wf h3))
        (run_pbind (parseBytes_ser (lt_of_bytesWf h4) _)
          (run_pbind (parseOption_ser (optBytes_elems h5) _)
            (run_pbind (parseOption_ser (optBytes_elems h6) rest) rfl)))))

/-- Round trip of the full message catalog: bincode deserialization of the
bincode serialization of any constructible `Message` yields the message back
and consumes exactly its encoding. -/
theorem parseMessage_ser {m : Message} (h : m.wfB = true) (rest : List Nat) :
    parseMessage (serMessage m ++ rest) = .ok (m, rest) := by
  cases m with
  | HereIAm v u =>
      simp only [Message.wfB, Bool.and_eq_true] at h
      obtain ⟨hv, hu⟩ := h
      simp only [serMessage, List.append_assoc]
      exact run_pbind (readNat_append _ (by norm_num))
        (run_pbind (readNat32_append _ (lt_of_u32wf hv))
          (run_pbind (parseUuid_ser hu rest) rfl))
  | YesItsMe v =>
      simp only [Message.wfB] at h
      simp only [serMessage, List.append_assoc]
      exact run_pbind (readNat_append _ (by norm_num))
        (run_pbind (readNat32_append rest (lt_of_u32wf h)) rfl)
  | PromoteToActive u =>
      simp only [Message.wfB] at h
      simp only [serMessage, List.append_assoc]
      exact run_pbind (readNat_append _ (by norm_num))
        (run_pbind (parseUuid_ser h rest) rfl)
  | YouAreNowActive u =>
      simp only [Message.wfB] at h
      simp only [serMessage, List.append_assoc]
      exact run_pbind (readNat_append _ (by norm_num))
        (run_pbind (parseUuid_ser h rest) rfl)
  | YouAreNoLongerActive u =>
      simp only [Message.wfB] at h
      simp only [serMessage, List.append_assoc]
      exact run_pbind (readNat_append _ (by norm_num))
        (run_pbind (parseUuid_ser h rest) rfl)
  | UuidMismatch u =>
      simp only [Message.wfB] at h
      simp only [serMessage, List.append_assoc]
      exact run_pbind (readNat_append _ (by norm_num))
        (run_pbind (parseUuid_ser h rest) rfl)
  | Ruok =>
      simp only [serMessage]
      exact run_pbind (readNat_append _ (by norm_num)) rfl
  | Imok =>
      simp only [serMessage]
      exact run_pbind (readNat_append _ (by norm_num)) rfl
  | RegionInfoPlease =>
      simp only [serMessage]
      exact run_pbind (readNat_append _ (by norm_num)) rfl
  | RegionInfo rd =>
      simp only [Message.wfB] at h
      simp only [serMessage, List.append_assoc]
      exact run_pbind (readNat_append _ (by norm_num))
        (run_pbind (parseRegionDefinition_ser h rest) rfl)
  | ExtentVersionsPlease =>
      simp only [serMessage]
      exact run_pbind (readNat_append _ (by norm_num)) rfl
  | LastFlush lf =>
      simp only [Message.wfB] at h
      simp only [serMessage, List.append_assoc]
      exact run_pbind (readNat_append _ (by norm_num))
        (run_pbind (readNat64_append rest (lt_of_u64wf h)) rfl)
  | LastFlushAck lf =>
      simp only [Message.wfB] at h
      simp only [serMessage, List.append_assoc]
      exact run_pbind (readNat_append _ (by norm_num))
        (run_pbind (readNat64_append rest (lt_of_u64wf h)) rfl)
  | ExtentVersions a b c =>
      simp only [Message.wfB, Bool.and_eq_true] at h
      obtain ⟨⟨ha, hb⟩, hc⟩ := h
      simp only [serMessage, List.append_assoc]
      exact run_pbind (readNat_append _ (by norm_num))
        (run_pbind (parseSeq_ser (lt64_of_seqWf ha) (seq64_elems ha) _)
          (run_pbind (parseSeq_ser (lt64_of_seqWf hb) (seq64_elems hb) _)
            (run_pbind (parseSeq_ser (lt64_of_seqWf hc)
              (fun x _ r => parseBool_ser x r) rest) rfl)))
  | Write u j deps ws =>
      simp only [Message.wfB, Bool.and_eq_true] at h
      obtain ⟨⟨⟨hu, hj⟩, hdeps⟩, hws⟩ := h
      simp only [serMessage, List.append_assoc]
      exact run_pbind (readNat_append _ (by norm_num))
        (run_pbind (parseUuid_ser hu _)
          (run_pbind (readNat64_append _ (lt_of_u64wf hj))
            (run_pbind (parseSeq_ser (lt64_of_seqWf hdeps) (seq64_elems hdeps) _)
              (run_pbind (parseSeq_ser (lt64_of_seqWf hws)
                (fun w hw r => parseWrite_ser (seqWf_elem hws w hw) r) rest) rfl))))
  | WriteAck u j r =>
      simp only [Message.wfB, Bool.and_eq_true] at h
      obtain ⟨⟨hu, hj⟩, hr⟩ := h
      simp only [serMessage, List.append_assoc]
      exact run_pbind (readNat_append _ (by norm_num))
        (run_pbind (parseUuid_ser hu _)
          (run_pbind (readNat64_append _ (lt_of_u64wf hj))
            (run_pbind (parseRustResult_ser (fun a _ s => rfl)
              (fun e he s => parseCrucibleError_ser (by rw [he] at hr; exact hr) s) rest)
              rfl)))
  | Flush u j deps fn gn =>
      simp only [Message.wfB, Bool.and_eq_true] at h
      obtain ⟨⟨⟨⟨hu, hj⟩, hdeps⟩, hfn⟩, hgn⟩ := h
      simp only [serMessage, List.append_assoc]
      exact run_pbind (readNat_append _ (by norm_num))
        (run_pbind (parseUuid_ser hu _)
          (run_pbind (readNat64_append _ (lt_of_u64wf hj))
            (run_pbind (parseSeq_ser (lt64_of_seqWf hdeps) (seq64_elems hdeps) _)
              (run_pbind (readNat64_append _ (lt_of_u64wf hfn))
                (run_pbind (readNat64_append rest (lt_of_u64wf hgn)) rfl)))))
  | FlushAck u j r =>
      simp only [Message.wfB, Bool.and_eq_true] at h
      obtain ⟨⟨hu, hj⟩, hr⟩ := h
      simp only [serMessage, List.append_assoc]
      exact run_pbind (readNat_append _ (by norm_num))
        (run_pbind (parseUuid_ser hu _)
          (run_pbind (readNat64_append _ (lt_of_u64wf hj))
            (run_pbind (parseRustResult_ser (fun a _ s => rfl)
              (fun e he s => parseCrucibleError_ser (by rw [he] at hr; exact hr) s) rest)
              rfl)))
  | ReadRequest u j deps rs =>
      simp only [Message.wfB, Bool.and_eq_true] at h
      obtain ⟨⟨⟨hu, hj⟩, hdeps⟩, hrs⟩ := h
      simp only [serMessage, List.append_assoc]
      exact run_pbind (readNat_append _ (by norm_num))
        (run_pbind (parseUuid_ser hu _)
          (run_pbind (readNat64_append _ (lt_of_u64wf hj))
            (run_pbind (parseSeq_ser (lt64_of_seqWf hdeps) (seq64_elems hdeps) _)
              (run_pbind (parseSeq_ser (lt64_of_seqWf hrs)
                (fun x hx r => parseReadRequest_ser (seqWf_elem hrs x hx) r) rest) rfl))))
  | ReadResponse u j r =>
      simp only [Message.wfB, Bool.and_eq_true] at h
      obtain ⟨⟨hu, hj⟩, hr⟩ := h
      simp only [serMessage, List.append_assoc]
      exact run_pbind (readNat_append _ (by norm_num))
        (run_pbind (parseUuid_ser hu _)
          (run_pbind (readNat64_append _ (lt_of_u64wf hj))
            (run_pbind (parseRustResult_ser
              (fun a ha s => parseSeq_ser (lt64_of_seqWf (by rw [ha] at hr; exact hr))
                (fun x hx r' => parseReadResponse_ser
                  (seqWf_elem (f := ReadResponse.wfB) (by rw [ha] at hr; exact hr) x hx) r') s)
              (fun e he s => parseCrucibleError_ser (by rw [he] at hr; exact hr) s) rest)
              rfl)))
  | Unknown t raw =>
      simp only [Message.wfB, Bool.and_eq_true] at h
      obtain ⟨ht, hraw⟩ := h
      simp only [serMessage, List.append_assoc]
      exact run_pbind (readNat_append _ (by norm_num))
        (run_pbind (readNat32_append _ (lt_of_u32wf ht))
          (run_pbind (parseBytes_ser (lt_of_bytesWf hraw) rest) rfl))

/-! ## Frame codec

`CrucibleEncoder.encode` appends `[u32 little-endian length | payload]` to
the destination buffer, where the length is `serialized size + 4`, truncated
to 32 bits exactly as the source's `len as u32` cast is.
`CrucibleDecoder.decode` mirrors `Decoder::decode`: pending on fewer than 4
buffered bytes, a bail on an oversized declared length, pending on an
incomplete frame, otherwise it advances past the 4 length bytes and hands the
remaining buffer to bincode, which consumes what the message needs. On the
two pending paths the buffer is returned unchanged (the source consumes
nothing there); on the successful path the returned list is the unconsumed
tail. -/

def MAX_FRM_LEN : Nat := 100 * 1024 * 1024

def CrucibleEncoder.encode (m : Message) (dst : List Nat) : List Nat :=
  dst ++ natToLe 4 ((serMessage m).length + 4) ++ serMessage m

def CrucibleDecoder.decode (src : List Nat) : Except DecodeErr (Option Message × List Nat) :=
  if src.length < 4 then .ok (none, src)
  else
    let len := leToNat (src.take 4)
    if len > MAX_FRM_LEN then .error (.frameTooLarge len)
    else if src.length < len then .ok (none, src)
    else
      match parseMessage (src.drop 4) with
      | .ok (m, rest) => .ok (some m, rest)
      | .error e => .error e

theorem decode_short {src : List Nat} (h : src.length < 4) :
    CrucibleDecoder.decode src = .ok (none, src) := by
  simp [CrucibleDecoder.decode, h]

theorem decode_oversize {head rest : List Nat} (hlen : head.length = 4)
    (hmax : MAX_FRM_LEN < leToNat head) :
    CrucibleDecoder.decode (head ++ rest) = .error (.frameTooLarge (leToNat head)) := by
  have h4 : ¬ (head ++ rest).length < 4 := by
    rw [List.length_append, hlen]; omega
  have htake : (head ++ rest).take 4 = head := List.take_left' hlen
  simp only [CrucibleDecoder.decode, htake, hmax, if_true]
  rw [if_neg h4]

theorem decode_pending {src : List Nat} (h4 : ¬ src.length < 4)
    (hmax : ¬ leToNat (src.take 4) > MAX_FRM_LEN)
    (hlt : src.length < leToNat (src.take 4)) :
    CrucibleDecoder.decode src = .ok (none, src) := by
  simp [CrucibleDecoder.decode, h4, hmax, hlt]

/-- Decoding a buffer whose head is an encoder-produced frame (that fits the
frame limit) yields the encoded message and leaves exactly the excess bytes. -/
theorem decode_encode_append {m : Message} (h : m.wfB = true)
    (hfit : (serMessage m).length + 4 ≤ MAX_FRM_LEN) (rest : List Nat) :
    CrucibleDecoder.decode (CrucibleEncoder.encode m [] ++ rest) = .ok (some m, rest) := by
  have hlt : (serMessage m).length + 4 < 2 ^ 32 := by
    have : MAX_FRM_LEN < 2 ^ 32 := by norm_num [MAX_FRM_LEN]
    omega
  have hsrc : CrucibleEncoder.encode m [] ++ rest =
      natToLe 4 ((serMessage m).length + 4) ++ (serMessage m ++ rest) := by
    simp [CrucibleEncoder.encode]
  rw [hsrc]
  have hlen4 : (natToLe 4 ((serMessage m).length + 4)).length = 4 := length_natToLe _ _
  have htake : (natToLe 4 ((serMessage m).length + 4) ++ (serMessage m ++ rest)).take 4 =
      natToLe 4 ((serMessage m).length + 4) := List.take_left' hlen4
  have hdrop : (natToLe 4 ((serMessage m).length + 4) ++ (serMessage m ++ rest)).drop 4 =
      serMessage m ++ rest := List.drop_left' hlen4
  have hval : leToNat (natToLe 4 ((serMessage m).length + 4)) = (serMessage m).length + 4 := by
    rw [leToNat_natToLe, Nat.mod_eq_of_lt]
    calc (serMessage m).length + 4 < 2 ^ 32 := hlt
    _ ≤ 256 ^ 4 := by norm_num
  have hlength : (natToLe 4 ((serMessage m).length + 4) ++ (serMessage m ++ rest)).length =
      4 + ((serMessage m).length + rest.length) := by
    simp [List.length_append, hlen4]
  have h4 : ¬ (natToLe 4 ((serMessage m).length + 4) ++ (serMessage m ++ rest)).length < 4 := by
    rw [hlength]; omega
  have hnotover : ¬ leToNat ((natToLe 4 ((serMessage m).length + 4) ++
      (serMessage m ++ rest)).take 4) > MAX_FRM_LEN := by
    rw [htake, hval]; omega
  have hnotpend : ¬ (natToLe 4 ((serMessage m).length + 4) ++ (serMessage m ++ rest)).length <
      leToNat ((natToLe 4 ((serMessage m).length + 4) ++ (serMessage m ++ rest)).take 4) := by
    rw [htake, hval, hlength]; omega
  rw [CrucibleDecoder.decode, if_neg h4]
  simp only [hnotover, if_neg, ite_false, hnotpend, hdrop]
  rw [parseMessage_ser h rest]

/-! ## Handshake state machine

Shallow embedding of `protocol/src/handshake.rs`. The `anyhow` error strings
are embedded structurally: `gotVersionAlready` is the bail
`Got version already!`, and `unexpectedCommand m s` is the bail
`Unexpected command {:?} received in state {:#?}` interpolating exactly the
offending message and the current state. `transportFailure` stands for an
error returned by the transport's init or send operation.

The `HandshakeInterface` trait is a capability with two operations; it is
modelled by the outcome each operation would return, and every call the
machine makes to `send_message` is recorded in the returned list, so the
send side effects of a call are exactly that list. -/

inductive HandshakeRole : Type
  | Upstairs
  | Downstairs
  deriving DecidableEq, Repr

inductive HandshakeState : Type
  | Start
  | WaitForActive
  | RegionInfo
  | ExtentVersion
  | Complete
  deriving DecidableEq, Repr

inductive HandshakeErr : Type
  | gotVersionAlready
  | unexpectedCommand (m : Message) (s : HandshakeState)
  | transportFailure (tag : Nat)
  deriving DecidableEq, Repr

structure HandshakeInterface : Type where
  initResult : Except HandshakeErr Unit
  sendResult : Message → Except HandshakeErr Unit

structure HandshakeProcess : Type where
  state : HandshakeState
  role : HandshakeRole
  uuid : Uuid
  deriving DecidableEq, Repr

def HandshakeProcess.new (role : HandshakeRole) (uuid : Uuid) : HandshakeProcess :=
  { state := .Start, role := role, uuid := uuid }

/-- `HandshakeProcess::start`: run the transport's init, propagating its
error; then an Upstairs sends `HereIAm(1, uuid)` (returning the send's
result) and a Downstairs does nothing. The second component lists the
messages passed to `send_message` during the call. -/
def HandshakeProcess.start (p : HandshakeProcess) (intf : HandshakeInterface) :
    Except HandshakeErr Unit × List Message :=
  match intf.initResult with
  | .error e => (.error e, [])
  | .ok _ =>
      match p.role with
      | .Upstairs => (intf.sendResult (.HereIAm 1 p.uuid), [.HereIAm 1 p.uuid])
      | .Downstairs => (.ok (), [])

/-- `HandshakeState::process_message`: the transition table. Only
`(Start, YesItsMe)` is accepted; `YesItsMe` in any other state is the
`Got version already!` bail, and every other pair is the
`Unexpected command ...` bail carrying the message and the state. -/
def HandshakeState.process_message (s : HandshakeState) (m : Message) :
    Except HandshakeErr HandshakeState :=
  match s, m with
  | .Start, .YesItsMe _ => .ok .WaitForActive
  | _, .YesItsMe _ => .error .gotVersionAlready
  | s, m => .error (.unexpectedCommand m s)

/-- `HandshakeProcess::process_message`: `Imok` is a no-op in all states;
every other message goes through the transition table, updating the state on
success and leaving it unchanged on error. The machine never calls
`send_message` here, so the sent-message list is empty. -/
def HandshakeProcess.process_message (p : HandshakeProcess) (m : Message) :
    Except HandshakeErr Unit × HandshakeProcess × List Message :=
  match m with
  | .Imok => (.ok (), p, [])
  | m =>
      match p.state.process_message m with
      | .ok newState => (.ok (), { p with state := newState }, [])
      | .error e => (.error e, p, [])

/-! ## Oversized messages

Concrete constructible messages whose encodings cross the decoder's frame
limit (`bigMsg`, one byte-payload block of exactly 100 MiB) and the 32-bit
length field (`hugeMsg`, a 4 GiB payload). Their lengths are computed
symbolically; the lists are never evaluated. -/

def uuid1 : Uuid := { bytes := List.replicate 16 7 }

def bigWrite : Write :=
  { eid := 0, offset := { value := 0 }, data := List.replicate MAX_FRM_LEN 0,
    nonce := none, tag := none }

def bigMsg : Message := .Write uuid1 0 [] [bigWrite]

def hugeWrite : Write :=
  { eid := 0, offset := { value := 0 }, data := List.replicate (2 ^ 32) 0,
    nonce := none, tag := none }

def hugeMsg : Message := .Write uuid1 0 [] [hugeWrite]

theorem length_serMessage_bigMsg : (serMessage bigMsg).length = 104857678 := by
  simp only [bigMsg, bigWrite, uuid1, serMessage, serUuid, serBlock, serBytes,
    serOption, serSeq, serWrite, List.map_cons, List.map_nil, List.flatten_cons,
    List.flatten_nil, List.append_nil, List.length_append, length_natToLe,
    List.length_replicate, MAX_FRM_LEN]
  norm_num

theorem length_serMessage_hugeMsg : (serMessage hugeMsg).length = 4294967374 := by
  simp only [hugeMsg, hugeWrite, uuid1, serMessage, serUuid, serBlock, serBytes,
    serOption, serSeq, serWrite, List.map_cons, List.map_nil, List.flatten_cons,
    List.flatten_nil, List.append_nil, List.length_append, length_natToLe,
    List.length_replicate]
  norm_num

theorem wfB_bigMsg : bigMsg.wfB = true := by
  simp only [bigMsg, bigWrite, uuid1, Message.wfB, Uuid.wfB, Write.wfB, Block.wfB,
    u64wf, seqWf, bytesWf, optBytesWf, List.length_replicate, List.all_cons,
    List.all_nil, List.length_cons, List.length_nil, MAX_FRM_LEN, Bool.and_eq_true]
  norm_num

theorem four_le_length_serMessage (m : Message) : 4 ≤ (serMessage m).length := by
  cases m <;> simp [serMessage, List.length_append]

/-- Encoding a message whose frame would not fit `MAX_FRM_LEN` and then
decoding yields the decoder's oversize bail, not the message. -/
theorem decode_encode_oversize {m : Message}
    (hover : MAX_FRM_LEN < (serMessage m).length + 4)
    (hlt : (serMessage m).length + 4 < 2 ^ 32) :
    CrucibleDecoder.decode (CrucibleEncoder.encode m []) =
      .error (.frameTooLarge ((serMessage m).length + 4)) := by
  have henc : CrucibleEncoder.encode m [] =
      natToLe 4 ((serMessage m).length + 4) ++ serMessage m := by
    simp [CrucibleEncoder.encode]
  have hval : leToNat (natToLe 4 ((serMessage m).length + 4)) = (serMessage m).length + 4 := by
    rw [leToNat_natToLe, Nat.mod_eq_of_lt (lt_of_lt_of_le hlt (by norm_num))]
  rw [henc, decode_oversize (length_natToLe 4 _) (by rw [hval]; exact hover), hval]

/-- The same, after dropping the frame's last byte: still the oversize bail. -/
theorem decode_dropLast_encode_oversize {m : Message}
    (hover : MAX_FRM_LEN < (serMessage m).length + 4)
    (hlt : (serMessage m).length + 4 < 2 ^ 32) :
    CrucibleDecoder.decode ((CrucibleEncoder.encode m []).dropLast) =
      .error (.frameTooLarge ((serMessage m).length + 4)) := by
  have hne : serMessage m ≠ [] := by
    have := four_le_length_serMessage m
    intro hnil
    rw [hnil] at this
    simp at this
  have henc : (CrucibleEncoder.encode m []).dropLast =
      natToLe 4 ((serMessage m).length + 4) ++ (serMessage m).dropLast := by
    simp only [CrucibleEncoder.encode, List.nil_append, List.append_assoc]
    rw [List.dropLast_append_of_ne_nil _ hne]
  have hval : leToNat (natToLe 4 ((serMessage m).length + 4)) = (serMessage m).length + 4 := by
    rw [leToNat_natToLe, Nat.mod_eq_of_lt (lt_of_lt_of_le hlt (by norm_num))]
  rw [henc, decode_oversize (length_natToLe 4 _) (by rw [hval]; exact hover), hval]

/-! ## Claims -/

/-- Small constructible message exercising the boundary case of a zero-length
`Write` data payload. -/
def msg0 : Message :=
  .Write uuid1 1 [2]
    [{ eid := 3, offset := { value := 4 }, data := [], nonce := none, tag := none }]

/-- C1 (amended): for every constructible Message whose encoded frame
(serialized size + 4) is within `MAX_FRM_LEN`, encoding and then decoding
yields `Ok(Some(m))`, an equal value, with the whole frame consumed. The
restriction to frames within the limit is forced by the counterexample: a
constructible message with a 100 MiB payload encodes fine but decode rejects
its declared length. -/
theorem spec_c1_round_trip (m : Message) (h : m.wfB = true)
    (hfit : (serMessage m).length + 4 ≤ MAX_FRM_LEN) :
    CrucibleDecoder.decode (CrucibleEncoder.encode m []) = .ok (some m, []) := by
  have h' := decode_encode_append h hfit []
  simpa using h'

theorem spec_c1_witness :
    Message.wfB msg0 = true ∧ (serMessage msg0).length + 4 ≤ MAX_FRM_LEN ∧
      CrucibleDecoder.decode (CrucibleEncoder.encode msg0 []) = .ok (some msg0, []) :=
  ⟨by decide, by decide, spec_c1_round_trip msg0 (by decide) (by decide)⟩

/-- C1 counterexample: `bigMsg` is a constructible catalog value (one `Write`
with a 100 MiB data payload), yet decoding its own encoding is the decoder's
fatal oversize error, not `Ok(Some(bigMsg))`. -/
theorem spec_c1_counterexample :
    bigMsg.wfB = true ∧
      CrucibleDecoder.decode (CrucibleEncoder.encode bigMsg []) =
        .error (.frameTooLarge 104857682) ∧
      CrucibleDecoder.decode (CrucibleEncoder.encode bigMsg []) ≠
        .ok (some bigMsg, []) := by
  have h := decode_encode_oversize (m := bigMsg)
    (by rw [length_serMessage_bigMsg]; norm_num [MAX_FRM_LEN])
    (by rw [length_serMessage_bigMsg]; norm_num)
  rw [length_serMessage_bigMsg] at h
  norm_num at h
  refine ⟨wfB_bigMsg, h, ?_⟩
  rw [h]
  simp

/-- C3: whenever at least 4 bytes are buffered (buffer = any 4-byte head
followed by anything) and the little-endian u32 they hold exceeds
`MAX_FRM_LEN`, decode fails with the fatal framing error. The conclusion does
not depend on the bytes after the head, which is the claim's "before reading
or consuming any payload bytes": the error is produced from the 4 length
bytes alone. -/
theorem spec_c3_oversize_reject (head rest : List Nat) (hlen : head.length = 4)
    (hmax : MAX_FRM_LEN < leToNat head) :
    CrucibleDecoder.decode (head ++ rest) = .error (.frameTooLarge (leToNat head)) :=
  decode_oversize hlen hmax

theorem spec_c3_witness :
    ([0, 0, 0, 7] : List Nat).length = 4 ∧ MAX_FRM_LEN < leToNat [0, 0, 0, 7] ∧
      CrucibleDecoder.decode ([0, 0, 0, 7] ++ [9, 9]) =
        .error (.frameTooLarge (leToNat [0, 0, 0, 7])) :=
  ⟨rfl, by decide, spec_c3_oversize_reject [0, 0, 0, 7] [9, 9] rfl (by decide)⟩

/-- C4 (amended): with no complete frame buffered — fewer than 4 bytes, or
fewer bytes than a non-oversized declared total length — decode returns
`Ok(None)` and consumes nothing; and encoding any message whose frame fits
`MAX_FRM_LEN` and dropping exactly the last byte decodes as Pending. The
fits-the-limit restriction on the truncation clause is forced by the
counterexample: truncating the encoding of a 100 MiB message yields the
oversize error, not Pending. -/
theorem spec_c4_pending (src : List Nat) (m : Message) :
    (src.length < 4 → CrucibleDecoder.decode src = .ok (none, src)) ∧
    (4 ≤ src.length → leToNat (src.take 4) ≤ MAX_FRM_LEN →
      src.length < leToNat (src.take 4) →
      CrucibleDecoder.decode src = .ok (none, src)) ∧
    (m.wfB = true → (serMessage m).length + 4 ≤ MAX_FRM_LEN →
      CrucibleDecoder.decode ((CrucibleEncoder.encode m []).dropLast) =
        .ok (none, (CrucibleEncoder.encode m []).dropLast)) := by
  refine ⟨fun h => decode_short h, fun h4 hmax hlt => ?_, fun hwf hfit => ?_⟩
  · exact decode_pending (by omega) (by omega) hlt
  · have hL4 := four_le_length_serMessage m
    have hne : serMessage m ≠ [] := by
      intro h0
      rw [h0] at hL4
      simp at hL4
    have henc : (CrucibleEncoder.encode m []).dropLast =
        natToLe 4 ((serMessage m).length + 4) ++ (serMessage m).dropLast := by
      simp only [CrucibleEncoder.encode, List.nil_append]
      rw [List.dropLast_append_of_ne_nil _ hne]
    have hMAXlt : MAX_FRM_LEN < 256 ^ 4 := by norm_num [MAX_FRM_LEN]
    have hval : leToNat (natToLe 4 ((serMessage m).length + 4)) =
        (serMessage m).length + 4 := by
      rw [leToNat_natToLe, Nat.mod_eq_of_lt (by omega)]
    have hlen2 : (natToLe 4 ((serMessage m).length + 4) ++
        (serMessage m).dropLast).length = 4 + ((serMessage m).length - 1) := by
      rw [List.length_append, length_natToLe, List.length_dropLast]
    have htake : (natToLe 4 ((serMessage m).length + 4) ++
        (serMessage m).dropLast).take 4 = natToLe 4 ((serMessage m).length + 4) :=
      List.take_left' (length_natToLe 4 _)
    rw [henc]
    exact decode_pending (by rw [hlen2]; omega)
      (by rw [htake, hval]; omega)
      (by rw [htake, hval, hlen2]; omega)

theorem spec_c4_witness :
    CrucibleDecoder.decode [1, 2] = .ok (none, [1, 2]) ∧
    CrucibleDecoder.decode [10, 0, 0, 0, 5] = .ok (none, [10, 0, 0, 0, 5]) ∧
    CrucibleDecoder.decode ((CrucibleEncoder.encode .Ruok []).dropLast) =
      .ok (none, (CrucibleEncoder.encode .Ruok []).dropLast) :=
  ⟨(spec_c4_pending [1, 2] .Ruok).1 (by decide),
   (spec_c4_pending [10, 0, 0, 0, 5] .Ruok).2.1 (by decide) (by decide) (by decide),
   (spec_c4_pending [] .Ruok).2.2 rfl (by decide)⟩

/-- C4 counterexample: removing the last byte of the encoding of the
constructible 100 MiB message does not decode as Pending — the declared
length is read first and decode fails with the oversize error. -/
theorem spec_c4_counterexample :
    bigMsg.wfB = true ∧
      CrucibleDecoder.decode ((CrucibleEncoder.encode bigMsg []).dropLast) =
        .error (.frameTooLarge 104857682) ∧
      CrucibleDecoder.decode ((CrucibleEncoder.encode bigMsg []).dropLast) ≠
        .ok (none, (CrucibleEncoder.encode bigMsg []).dropLast) := by
  have h := decode_dropLast_encode_oversize (m := bigMsg)
    (by rw [length_serMessage_bigMsg]; norm_num [MAX_FRM_LEN])
    (by rw [length_serMessage_bigMsg]; norm_num)
  rw [length_serMessage_bigMsg] at h
  norm_num at h
  refine ⟨wfB_bigMsg, h, ?_⟩
  rw [h]
  simp

/-- C5: evaluation of the decoder at the claim's failing input. The buffer
holds one fully buffered frame (declared length 8) whose payload carries the
unrecognized variant tag 21 (the catalog's tags are 0..20 with `Unknown`
itself at 20); `decode` propagates bincode's invalid-variant error instead of
returning `Ok(Some(Unknown(21, raw_bytes)))` — the decoder never constructs
the `Unknown` variant from an unrecognized tag. -/
theorem spec_c5_unknown_tag_errors :
    CrucibleDecoder.decode [8, 0, 0, 0, 21, 0, 0, 0] = .error (.invalidTag 21) ∧
      ∀ raw : List Nat,
        CrucibleDecoder.decode [8, 0, 0, 0, 21, 0, 0, 0] ≠
          .ok (some (.Unknown 21 raw), []) := by
  refine ⟨rfl, fun raw hc => ?_⟩
  have hd : CrucibleDecoder.decode [8, 0, 0, 0, 21, 0, 0, 0] = .error (.invalidTag 21) := rfl
  rw [hd] at hc
  exact Except.noConfusion hc

/-- C6 (amended): on a successful decode, the decoder consumes the 4 length
bytes plus exactly the bytes the message's bincode serialization occupies;
when the frame at the head of the buffer was produced by the encoder (so its
declared length is serialized size + 4 and within `MAX_FRM_LEN`), this is
precisely the whole declared frame, one message per call, excess bytes left
for the next call. The restriction to encoder-shaped frames is forced by the
counterexample: on a hand-crafted frame whose declared length differs from
the payload's serialized size, decode consumes what bincode reads, not
`length - 4`. -/
theorem spec_c6_consumes_frame (m : Message) (rest : List Nat) (h : m.wfB = true)
    (hfit : (serMessage m).length + 4 ≤ MAX_FRM_LEN) :
    CrucibleDecoder.decode (CrucibleEncoder.encode m [] ++ rest) = .ok (some m, rest) :=
  decode_encode_append h hfit rest

theorem spec_c6_witness :
    Message.wfB .Imok = true ∧ (serMessage .Imok).length + 4 ≤ MAX_FRM_LEN ∧
      CrucibleDecoder.decode (CrucibleEncoder.encode .Imok [] ++ [9, 9, 9]) =
        .ok (some .Imok, [9, 9, 9]) :=
  ⟨rfl, by decide, spec_c6_consumes_frame .Imok [9, 9, 9] rfl (by decide)⟩

/-- C6 counterexample: a fully buffered frame with declared total length 5
whose payload bytes encode `Ruok` (which serializes to 4 bytes, not
`5 - 4 = 1`). Decode succeeds with `Ruok` but consumes all 8 buffered bytes —
4 prefix + 4 read by bincode — leaving `[]`, not the `[0, 0, 0]` that
advancing exactly past the declared 5-byte frame would leave. -/
theorem spec_c6_counterexample :
    CrucibleDecoder.decode [5, 0, 0, 0, 6, 0, 0, 0] = .ok (some .Ruok, []) ∧
      ([] : List Nat) ≠
        List.drop (leToNat (List.take 4 [5, 0, 0, 0, 6, 0, 0, 0])) [5, 0, 0, 0, 6, 0, 0, 0] := by
  exact ⟨rfl, by decide⟩

/-- C7 (amended): `encode` emits the destination buffer, then a 4-byte
little-endian u32 equal to `(serialized size + 4) mod 2^32`, then the
payload, and nothing else; whenever `serialized size + 4` fits in 32 bits —
which the counterexample shows is a real restriction — the emitted prefix
decodes back to exactly `serialized size + 4`, the inclusive declared
length. -/
theorem spec_c7_frame_layout (m : Message) (dst : List Nat)
    (hfit : (serMessage m).length + 4 < 2 ^ 32) :
    CrucibleEncoder.encode m dst =
        dst ++ natToLe 4 ((serMessage m).length + 4) ++ serMessage m ∧
      leToNat ((CrucibleEncoder.encode m []).take 4) = (serMessage m).length + 4 ∧
      (CrucibleEncoder.encode m []).drop 4 = serMessage m ∧
      (CrucibleEncoder.encode m []).length = (serMessage m).length + 4 := by
  have henc : CrucibleEncoder.encode m [] =
      natToLe 4 ((serMessage m).length + 4) ++ serMessage m := by
    simp [CrucibleEncoder.encode]
  refine ⟨rfl, ?_, ?_, ?_⟩
  · rw [henc, List.take_left' (length_natToLe 4 _),
      leToNat_natToLe_of_lt (lt_of_lt_of_le hfit (by norm_num))]
  · rw [henc, List.drop_left' (length_natToLe 4 _)]
  · rw [henc, List.length_append, length_natToLe]
    omega

theorem spec_c7_witness :
    CrucibleEncoder.encode (.YesItsMe 3) [9] =
        [9] ++ natToLe 4 ((serMessage (.YesItsMe 3)).length + 4) ++ serMessage (.YesItsMe 3) ∧
      leToNat ((CrucibleEncoder.encode (.YesItsMe 3) []).take 4) =
        (serMessage (.YesItsMe 3)).length + 4 ∧
      (CrucibleEncoder.encode (.YesItsMe 3) []).drop 4 = serMessage (.YesItsMe 3) ∧
      (CrucibleEncoder.encode (.YesItsMe 3) []).length = (serMessage (.YesItsMe 3)).length + 4 :=
  spec_c7_frame_layout (.YesItsMe 3) [9] (by decide)

/-- C7 counterexample: `hugeMsg` is a catalog value whose serialized size
plus 4 is 4294967378, above `u32::MAX`; the `len as u32` cast truncates and
the emitted 4-byte prefix holds 82, not `serialized size + 4`. -/
theorem spec_c7_counterexample :
    leToNat ((CrucibleEncoder.encode hugeMsg []).take 4) = 82 ∧
      (serMessage hugeMsg).length + 4 = 4294967378 ∧
      leToNat ((CrucibleEncoder.encode hugeMsg []).take 4) ≠
        (serMessage hugeMsg).length + 4 := by
  have henc : CrucibleEncoder.encode hugeMsg [] =
      natToLe 4 ((serMessage hugeMsg).length + 4) ++ serMessage hugeMsg := by
    simp [CrucibleEncoder.encode]
  have htake : leToNat ((CrucibleEncoder.encode hugeMsg []).take 4) =
      ((serMessage hugeMsg).length + 4) % 256 ^ 4 := by
    rw [henc, List.take_left' (length_natToLe 4 _), leToNat_natToLe]
  refine ⟨?_, ?_, ?_⟩
  · rw [htake, length_serMessage_hugeMsg]
    norm_num
  · rw [length_serMessage_hugeMsg]
  · rw [htake, length_serMessage_hugeMsg]
    norm_num

/-- C2: the handshake transition table. `YesItsMe` in `Start` succeeds and
moves the machine to `WaitForActive`; `YesItsMe` in any other state is the
`Got version already!` error; and every other message — other than `Imok`,
which `HandshakeProcess::process_message` intercepts before the table as the
designed liveness no-op — is rejected with the error carrying both the
unexpected message and the current state, with the state unchanged. -/
theorem spec_c2_transition_table (p : HandshakeProcess) (v : Nat) (m : Message) :
    (p.state = .Start →
      p.process_message (.YesItsMe v) = (.ok (), { p with state := .WaitForActive }, [])) ∧
    (p.state ≠ .Start →
      p.process_message (.YesItsMe v) = (.error .gotVersionAlready, p, [])) ∧
    ((∀ w, m ≠ .YesItsMe w) → m ≠ .Imok →
      p.process_message m = (.error (.unexpectedCommand m p.state), p, [])) := by
  obtain ⟨s, role, uuid⟩ := p
  refine ⟨fun hs => ?_, fun hs => ?_, fun hm him => ?_⟩
  · cases hs
    rfl
  · cases s
    · exact absurd rfl hs
    · rfl
    · rfl
    · rfl
    · rfl
  · cases m <;>
      first
        | exact absurd rfl (hm _)
        | exact absurd rfl him
        | (cases s <;> rfl)

theorem spec_c2_witness :
    (HandshakeProcess.new .Upstairs uuid1).process_message (.YesItsMe 1) =
        (.ok (), { HandshakeProcess.new .Upstairs uuid1 with state := .WaitForActive }, []) ∧
      ({ state := .WaitForActive, role := .Upstairs, uuid := uuid1 } :
          HandshakeProcess).process_message (.YesItsMe 1) =
        (.error .gotVersionAlready,
          { state := .WaitForActive, role := .Upstairs, uuid := uuid1 }, []) ∧
      (HandshakeProcess.new .Upstairs uuid1).process_message .Ruok =
        (.error (.unexpectedCommand .Ruok (HandshakeProcess.new .Upstairs uuid1).state),
          HandshakeProcess.new .Upstairs uuid1, []) :=
  ⟨(spec_c2_transition_table (HandshakeProcess.new .Upstairs uuid1) 1 .Ruok).1 rfl,
   (spec_c2_transition_table
      { state := .WaitForActive, role := .Upstairs, uuid := uuid1 } 1 .Ruok).2.1
      (by simp),
   (spec_c2_transition_table (HandshakeProcess.new .Upstairs uuid1) 1 .Ruok).2.2
      (fun w h => Message.noConfusion h) (fun h => Message.noConfusion h)⟩

/-- C8: `HandshakeProcess::start` first runs the transport's init and
propagates its failure unchanged without sending anything; with init
succeeding, an Upstairs machine hands exactly one `HereIAm(1, uuid)` to
`send_message` (returning the send's result) and does nothing else, and a
Downstairs machine sends nothing. -/
theorem spec_c8_start (p : HandshakeProcess) (intf : HandshakeInterface) :
    (∀ e, intf.initResult = .error e → p.start intf = (.error e, [])) ∧
    (intf.initResult = .ok () → p.role = .Upstairs →
      p.start intf = (intf.sendResult (.HereIAm 1 p.uuid), [.HereIAm 1 p.uuid])) ∧
    (intf.initResult = .ok () → p.role = .Downstairs → p.start intf = (.ok (), [])) := by
  refine ⟨fun e he => ?_, fun hi hr => ?_, fun hi hr => ?_⟩
  · simp [HandshakeProcess.start, he]
  · simp [HandshakeProcess.start, hi, hr]
  · simp [HandshakeProcess.start, hi, hr]

theorem spec_c8_witness :
    (HandshakeProcess.new .Upstairs uuid1).start
        { initResult := .error (.transportFailure 9), sendResult := fun _ => .ok () } =
      (.error (.transportFailure 9), []) ∧
    (HandshakeProcess.new .Upstairs uuid1).start
        { initResult := .ok (), sendResult := fun _ => .ok () } =
      (({ initResult := .ok (), sendResult := fun _ => .ok () } :
          HandshakeInterface).sendResult
          (.HereIAm 1 (HandshakeProcess.new .Upstairs uuid1).uuid),
        [.HereIAm 1 (HandshakeProcess.new .Upstairs uuid1).uuid]) ∧
    (HandshakeProcess.new .Downstairs uuid1).start
        { initResult := .ok (), sendResult := fun _ => .ok () } = (.ok (), []) :=
  ⟨(spec_c8_start (HandshakeProcess.new .Upstairs uuid1)
      { initResult := .error (.transportFailure 9), sendResult := fun _ => .ok () }).1
      (.transportFailure 9) rfl,
   (spec_c8_start (HandshakeProcess.new .Upstairs uuid1)
      { initResult := .ok (), sendResult := fun _ => .ok () }).2.1 rfl rfl,
   (spec_c8_start (HandshakeProcess.new .Downstairs uuid1)
      { initResult := .ok (), sendResult := fun _ => .ok () }).2.2 rfl rfl⟩

/-- C9: `process_message(Imok)` succeeds in every state, changes nothing
about the machine, and sends no message (the empty sent list), so the
last-sent message is left unchanged. -/
theorem spec_c9_imok_noop (p : HandshakeProcess) :
    p.process_message .Imok = (.ok (), p, []) := rfl

/-- C10 (amended): only `Imok` is exempt from handshake-state gating; `Ruok`
is not. In every state, `process_message(Ruok)` falls through to the
transition table's catch-all and returns the error carrying the message and
the current state — it never changes the handshake state. -/
theorem spec_c10_ruok_rejected (p : HandshakeProcess) :
    p.process_message .Ruok = (.error (.unexpectedCommand .Ruok p.state), p, []) ∧
      p.process_message .Imok = (.ok (), p, []) := by
  obtain ⟨s, role, uuid⟩ := p
  exact ⟨by cases s <;> rfl, rfl⟩

/-- C10 counterexample: in the `Start` state — before negotiation
completes — `process_message(Ruok)` is not accepted: it returns the
unexpected-command error instead of succeeding. -/
theorem spec_c10_counterexample :
    (HandshakeProcess.new .Upstairs uuid1).process_message .Ruok =
        (.error (.unexpectedCommand .Ruok .Start), HandshakeProcess.new .Upstairs uuid1, []) ∧
      ((HandshakeProcess.new .Upstairs uuid1).process_message .Ruok).1 ≠ .ok () := by
  refine ⟨rfl, fun hc => ?_⟩
  have hd : ((HandshakeProcess.new .Upstairs uuid1).process_message .Ruok).1 =
      .error (.unexpectedCommand .Ruok .Start) := rfl
  rw [hd] at hc
  exact Except.noConfusion hc
